import Mathlib

/-!
Verification development for the AProtocol node core.

Each section shallowly embeds one part of the Rust source:

* `AProto.Receipt` — the RPC receipt response builder
  (`crates/rpc/rpc-eth-api/src/eth/api/receipt.rs`, `ReceiptBuilder::new`);
* `AProto.Launch` — the staged node launcher
  (`crates/node/builder/src/launch/mod.rs`, `DefaultNodeLauncher::launch_node`);
* `AProto.PrunerCfg` — the pruner configuration built during launch;
* `AProto.Engine` — the consensus-engine inbound directive stream;
* `AProto.NodeApi` — the absent-capability trait implementations on `Option<()>`
  (`crates/node/api/src/node.rs`);
* `AProto.Revm` — the executor `Factory` (`crates/revm/src/factory.rs`).

Machine integers are modelled as `Nat` with explicit wrap-around where the
source performs `u64` arithmetic; fallible Rust functions return `Except`.
External collaborators from other crates (signature recovery, blob gas price
formula, bloom computation, contract address derivation) are abstracted as
function parameters or pre-computed fields, since the claims do not depend
on their internals.
-/

namespace AProto

namespace Receipt

/-- Wrap-around subtraction on 64-bit unsigned integers, as performed by the
release-mode Rust expression
`receipt.cumulative_gas_used - prev_receipt.cumulative_gas_used`. -/
def u64_sub (a b : Nat) : Nat :=
  (a % 2 ^ 64 + 2 ^ 64 - b % 2 ^ 64) % 2 ^ 64

/-- The execution receipt (`reth_primitives::Receipt`), restricted to the
fields `ReceiptBuilder::new` reads: `success`, `cumulative_gas_used` (a `u64`)
and `logs`.  Log payloads are opaque and modelled as `Nat`. -/
structure Rcpt where
  success : Bool
  cumulative_gas_used : Nat
  logs : List Nat
deriving DecidableEq, Repr

/-- Transaction metadata (`reth_primitives::TransactionMeta`): hashes and
numbers are opaque `Nat`s. -/
structure TransactionMeta where
  tx_hash : Nat
  index : Nat
  block_hash : Nat
  block_number : Nat
  base_fee : Option Nat
  excess_blob_gas : Option Nat
  timestamp : Nat
deriving Repr

/-- The transaction kind read via `transaction.transaction.kind()`. -/
inductive TxKind where
  | create : TxKind
  | call (addr : Nat) : TxKind
deriving DecidableEq, Repr

/-- The signed transaction, restricted to what `ReceiptBuilder::new` reads.
`signer` is the (pre-computed) result of the external
`recover_signer_unchecked()`; `blob_gas_used` is
`transaction.transaction.blob_gas_used()`; `effective_gas_price` is the
external fee computation `transaction.effective_gas_price(base_fee)`. -/
structure TransactionSigned where
  signer : Option Nat
  blob_gas_used : Option Nat
  kind : TxKind
  nonce : Nat
  tx_type : Nat
  effective_gas_price : Option Nat → Nat

/-- Error type: the only error `ReceiptBuilder::new` can produce. -/
inductive EthApiError where
  | invalidTransactionSignature : EthApiError
deriving DecidableEq, Repr

/-- An RPC log entry (`reth_rpc_types::Log`) as assembled by the builder. -/
structure RpcLog where
  inner : Nat
  block_hash : Option Nat
  block_number : Option Nat
  block_timestamp : Option Nat
  transaction_hash : Option Nat
  transaction_index : Option Nat
  log_index : Option Nat
  removed : Bool
deriving DecidableEq, Repr

/-- The RPC receipt body (`reth_rpc_types::Receipt`). -/
structure RpcReceipt where
  status : Bool
  cumulative_gas_used : Nat
  logs : List RpcLog
deriving DecidableEq, Repr

/-- The base RPC response (`reth_rpc_types::TransactionReceipt` flattened with
its `AnyReceiptEnvelope`/`ReceiptWithBloom` wrappers). -/
structure TransactionReceipt where
  receipt : RpcReceipt
  logs_bloom : Nat
  tx_type : Nat
  transaction_hash : Nat
  transaction_index : Option Nat
  block_hash : Option Nat
  block_number : Option Nat
  from_addr : Nat
  to_addr : Option Nat
  gas_used : Nat
  contract_address : Option Nat
  effective_gas_price : Nat
  state_root : Option Nat
  blob_gas_price : Option Nat
  blob_gas_used : Option Nat
deriving DecidableEq, Repr

/-- External collaborators called by `ReceiptBuilder::new` but defined in
other crates: `calc_blob_gasprice` (EIP-4844 blob gas price from excess blob
gas), `create_address` (`from.create(nonce)`) and `bloom_slow` (the receipt's
logs bloom). -/
structure Externals where
  calc_blob_gasprice : Nat → Nat
  create_address : Nat → Nat → Nat
  bloom_slow : List Nat → Nat

/-- The receipt response builder. -/
structure ReceiptBuilder where
  base : TransactionReceipt
  other : List (Nat × Nat)
deriving DecidableEq, Repr

/-- Shallow embedding of `ReceiptBuilder::new`
(`crates/rpc/rpc-eth-api/src/eth/api/receipt.rs`, lines 44-128), following
the source line by line. -/
def ReceiptBuilder.new (ext : Externals) (transaction : TransactionSigned)
    (meta : TransactionMeta) (receipt : Rcpt) (all_receipts : List Rcpt) :
    Except EthApiError ReceiptBuilder := do
  let from_addr ← match transaction.signer with
    | some a => Except.ok a
    | none => Except.error EthApiError.invalidTransactionSignature
  let gas_used :=
    if meta.index = 0 then
      receipt.cumulative_gas_used
    else
      let prev_tx_idx := meta.index - 1
      match all_receipts[prev_tx_idx]? with
      | some prev_receipt =>
          u64_sub receipt.cumulative_gas_used prev_receipt.cumulative_gas_used
      | none => 0
  let blob_gas_used := transaction.blob_gas_used
  let blob_gas_price :=
    blob_gas_used.bind fun _ => meta.excess_blob_gas.map ext.calc_blob_gasprice
  let logs_bloom := ext.bloom_slow receipt.logs
  let num_logs := ((all_receipts.take meta.index).map (fun r => r.logs.length)).sum
  let logs := receipt.logs.enum.map fun p =>
    { inner := p.2
      block_hash := some meta.block_hash
      block_number := some meta.block_number
      block_timestamp := some meta.timestamp
      transaction_hash := some meta.tx_hash
      transaction_index := some meta.index
      log_index := some (num_logs + p.1)
      removed := false : RpcLog }
  let rpc_receipt : RpcReceipt :=
    { status := receipt.success
      cumulative_gas_used := receipt.cumulative_gas_used
      logs := logs }
  let ct := match transaction.kind with
    | TxKind.create => (some (ext.create_address from_addr transaction.nonce), none)
    | TxKind.call addr => (none, some addr)
  let base : TransactionReceipt :=
    { receipt := rpc_receipt
      logs_bloom := logs_bloom
      tx_type := transaction.tx_type
      transaction_hash := meta.tx_hash
      transaction_index := some meta.index
      block_hash := some meta.block_hash
      block_number := some meta.block_number
      from_addr := from_addr
      to_addr := ct.2
      gas_used := gas_used
      contract_address := ct.1
      effective_gas_price := transaction.effective_gas_price meta.base_fee
      state_root := none
      blob_gas_price := blob_gas_price
      blob_gas_used := blob_gas_used }
  Except.ok { base := base, other := [] }

/-- Wrap-around subtraction agrees with truncated subtraction on in-range,
ordered operands. -/
theorem u64_sub_eq (a b : Nat) (hba : b ≤ a) (ha : a < 2 ^ 64) :
    u64_sub a b = a - b := by
  have hb : b < 2 ^ 64 := lt_of_le_of_lt hba ha
  unfold u64_sub
  rw [Nat.mod_eq_of_lt ha, Nat.mod_eq_of_lt hb]
  have hp : (2 : Nat) ^ 64 = 18446744073709551616 := by norm_num
  rw [hp] at ha hb ⊢
  omega

/-- Concrete external collaborators used to evaluate the model on inputs. -/
def extX : Externals :=
  { calc_blob_gasprice := fun e => 2 * e + 1
    create_address := fun a n => 1000 * a + n
    bloom_slow := fun l => l.length }

/-- Concrete call transaction with a recoverable signer and no blob data. -/
def txX : TransactionSigned :=
  { signer := some 7
    blob_gas_used := none
    kind := TxKind.call 5
    nonce := 3
    tx_type := 2
    effective_gas_price := fun _ => 0 }

/-- Concrete blob-carrying transaction. -/
def txBlob : TransactionSigned :=
  { txX with blob_gas_used := some 131072 }

/-- Three block receipts with cumulative gas used 21000, 42000, 84000 and
one, two and one logs respectively. -/
def rsX : List Rcpt :=
  [{ success := true, cumulative_gas_used := 21000, logs := [10] },
   { success := true, cumulative_gas_used := 42000, logs := [20, 21] },
   { success := true, cumulative_gas_used := 84000, logs := [30] }]

/-- The third receipt of `rsX`. -/
def rcX : Rcpt := { success := true, cumulative_gas_used := 84000, logs := [30] }

/-- Metadata for the transaction at block index 2. -/
def metaX : TransactionMeta :=
  { tx_hash := 99
    index := 2
    block_hash := 88
    block_number := 5
    base_fee := some 7
    excess_blob_gas := some 17
    timestamp := 1234 }

/-- C1: `ReceiptBuilder::new` computes the receipt's `gas_used` as the delta
between consecutive cumulative-gas-used values: at index 0 it is the
transaction's own cumulative gas used; at index `i > 0`, when `all_receipts`
holds a receipt at index `i - 1` whose cumulative gas used does not exceed
the transaction's, it is the difference of the two cumulative values. -/
theorem receipt_gas_used_delta (ext : Externals) (transaction : TransactionSigned)
    (meta : TransactionMeta) (receipt : Rcpt) (all_receipts : List Rcpt)
    (a : Nat) (hsig : transaction.signer = some a) :
    (meta.index = 0 →
      (ReceiptBuilder.new ext transaction meta receipt all_receipts).map
          (fun b => b.base.gas_used) = Except.ok receipt.cumulative_gas_used)
    ∧ (∀ prev : Rcpt, 0 < meta.index →
        all_receipts[meta.index - 1]? = some prev →
        prev.cumulative_gas_used ≤ receipt.cumulative_gas_used →
        receipt.cumulative_gas_used < 2 ^ 64 →
        (ReceiptBuilder.new ext transaction meta receipt all_receipts).map
            (fun b => b.base.gas_used) =
          Except.ok (receipt.cumulative_gas_used - prev.cumulative_gas_used)) := by
  constructor
  · intro h0
    simp [ReceiptBuilder.new, hsig, h0, Except.map, Except.bind, bind]
  · intro prev hpos hprev hle hlt
    have hne : meta.index ≠ 0 := Nat.pos_iff_ne_zero.mp hpos
    simp [ReceiptBuilder.new, hsig, hne, hprev, Except.map, Except.bind, bind,
      u64_sub_eq _ _ hle hlt]

/-- Witness for C1: on the three-receipt block with cumulative gas used
21000, 42000, 84000, the transaction at index 2 gets `gas_used` 42000. -/
theorem receipt_gas_used_delta_witness :
    (ReceiptBuilder.new extX txX metaX rcX rsX).map
        (fun b => b.base.gas_used) = Except.ok 42000 := by
  have h := (receipt_gas_used_delta extX txX metaX rcX rsX 7 rfl).2
    { success := true, cumulative_gas_used := 42000, logs := [20, 21] }
    (by decide) (by rfl) (by decide) (by decide)
  have e : (84000 : Nat) - 42000 = 42000 := by norm_num
  simpa [rcX, e] using h

/-- C9: when `meta.index > 0` but `all_receipts` has no receipt at index
`meta.index - 1`, `ReceiptBuilder::new` does not error for that reason; it
builds the receipt with `gas_used = 0` (the `unwrap_or_default`). -/
theorem receipt_gas_used_missing_prev (ext : Externals)
    (transaction : TransactionSigned) (meta : TransactionMeta) (receipt : Rcpt)
    (all_receipts : List Rcpt) (a : Nat) (hsig : transaction.signer = some a)
    (hpos : 0 < meta.index)
    (hnone : all_receipts[meta.index - 1]? = none) :
    (ReceiptBuilder.new ext transaction meta receipt all_receipts).map
        (fun b => b.base.gas_used) = Except.ok 0 := by
  have hne : meta.index ≠ 0 := Nat.pos_iff_ne_zero.mp hpos
  simp [ReceiptBuilder.new, hsig, hne, hnone, Except.map, Except.bind, bind]

/-- Witness for C9: index 2 with a single-receipt block list yields a
successfully built receipt with `gas_used = 0`. -/
theorem receipt_gas_used_missing_prev_witness :
    (ReceiptBuilder.new extX txX metaX rcX
        [{ success := true, cumulative_gas_used := 21000, logs := [10] }]).map
        (fun b => b.base.gas_used) = Except.ok 0 :=
  receipt_gas_used_missing_prev extX txX metaX rcX
    [{ success := true, cumulative_gas_used := 21000, logs := [10] }]
    7 rfl (by decide) (by rfl)

/-- C4: `ReceiptBuilder::new` keeps one RPC log per receipt log and gives the
k-th log of the transaction the log index (sum of the log counts of the first
`meta.index` receipts of the block) + k, carrying the transaction's block
hash, block number, timestamp, transaction hash and transaction index, with
`removed = false`. -/
theorem receipt_log_metadata (ext : Externals) (transaction : TransactionSigned)
    (meta : TransactionMeta) (receipt : Rcpt) (all_receipts : List Rcpt)
    (a : Nat) (hsig : transaction.signer = some a) :
    ((ReceiptBuilder.new ext transaction meta receipt all_receipts).map
        (fun b => b.base.receipt.logs.length) = Except.ok receipt.logs.length)
    ∧ (∀ k payload, receipt.logs[k]? = some payload →
        (ReceiptBuilder.new ext transaction meta receipt all_receipts).map
            (fun b => b.base.receipt.logs[k]?) =
          Except.ok (some
            ({ inner := payload
               block_hash := some meta.block_hash
               block_number := some meta.block_number
               block_timestamp := some meta.timestamp
               transaction_hash := some meta.tx_hash
               transaction_index := some meta.index
               log_index := some
                 (((all_receipts.take meta.index).map
                     (fun r => r.logs.length)).sum + k)
               removed := false } : RpcLog))) := by
  constructor
  · simp [ReceiptBuilder.new, hsig, Except.map, Except.bind, bind]
  · intro k payload hk
    simp [ReceiptBuilder.new, hsig, Except.map, Except.bind, bind,
      List.getElem?_map, List.getElem?_enum, hk]

/-- Witness for C4: in the three-receipt block `rsX` (1, 2 and 1 logs), the
first log of the transaction at index 2 gets log index 1 + 2 + 0 = 3 and the
metadata of `metaX`. -/
theorem receipt_log_metadata_witness :
    (ReceiptBuilder.new extX txX metaX rcX rsX).map
        (fun b => b.base.receipt.logs[0]?) =
      Except.ok (some
        ({ inner := 30
           block_hash := some 88
           block_number := some 5
           block_timestamp := some 1234
           transaction_hash := some 99
           transaction_index := some 2
           log_index := some 3
           removed := false } : RpcLog)) := by
  have h := (receipt_log_metadata extX txX metaX rcX rsX 7 rfl).2 0 30 (by rfl)
  simpa [rsX, rcX, metaX] using h

/-- C8: `ReceiptBuilder::new` sets `blob_gas_price` to
`some (calc_blob_gasprice excess)` exactly when the transaction reports blob
gas used and the metadata carries an excess blob gas value, and to `none`
for a transaction without blob data. -/
theorem receipt_blob_gas_price (ext : Externals) (transaction : TransactionSigned)
    (meta : TransactionMeta) (receipt : Rcpt) (all_receipts : List Rcpt)
    (a : Nat) (hsig : transaction.signer = some a) :
    (∀ e, transaction.blob_gas_used.isSome = true →
      meta.excess_blob_gas = some e →
      (ReceiptBuilder.new ext transaction meta receipt all_receipts).map
          (fun b => b.base.blob_gas_price) =
        Except.ok (some (ext.calc_blob_gasprice e)))
    ∧ (transaction.blob_gas_used = none →
      (ReceiptBuilder.new ext transaction meta receipt all_receipts).map
          (fun b => b.base.blob_gas_price) = Except.ok none)
    ∧ ((ReceiptBuilder.new ext transaction meta receipt all_receipts).map
          (fun b => b.base.blob_gas_price.isSome) =
        Except.ok (transaction.blob_gas_used.isSome
          && meta.excess_blob_gas.isSome)) := by
  refine ⟨?_, ?_, ?_⟩
  · intro e hsome he
    obtain ⟨u, hu⟩ := Option.isSome_iff_exists.mp hsome
    simp [ReceiptBuilder.new, hsig, hu, he, Except.map, Except.bind, bind]
  · intro hnone
    simp [ReceiptBuilder.new, hsig, hnone, Except.map, Except.bind, bind]
  · cases hbg : transaction.blob_gas_used <;>
      cases hex : meta.excess_blob_gas <;>
      simp [ReceiptBuilder.new, hsig, hbg, hex, Except.map, Except.bind, bind]

/-- Witness for C8: the blob transaction `txBlob` under `metaX`
(excess blob gas 17) gets blob gas price `extX.calc_blob_gasprice 17 = 35`;
and the blob-less `txX` gets `none`. -/
theorem receipt_blob_gas_price_witness :
    (ReceiptBuilder.new extX txBlob metaX rcX rsX).map
        (fun b => b.base.blob_gas_price) = Except.ok (some 35) := by
  have h := (receipt_blob_gas_price extX txBlob metaX rcX rsX 7 rfl).1 17
    (by rfl) (by rfl)
  simpa [extX] using h

end Receipt

namespace Launch

/-- The stages `DefaultNodeLauncher::launch_node`
(`crates/node/builder/src/launch/mod.rs`, lines 98-334) executes, in source
order.  The first eleven are the `LaunchContext` chain (lines 112-139); the
rest are the fallible steps that follow it: `fetch_client().await?`
(line 152), `ctx.max_block(..).await?` (line 164), the networked-pipeline
build `.await?` (lines 200-235), `BeaconConsensusEngine::with_channel(..)?`
(lines 258-271) and `on_node_started.on_event(..)?` (line 323). -/
inductive Stage where
  | configured_globals : Stage
  | loaded_toml_config : Stage
  | resolved_peers : Stage
  | attach_database : Stage
  | adjusted_configs : Stage
  | provider_factory : Stage
  | prometheus : Stage
  | genesis : Stage
  | metrics : Stage
  | blockchain_db : Stage
  | components : Stage
  | fetch_client : Stage
  | max_block : Stage
  | build_pipeline : Stage
  | consensus_engine_build : Stage
  | on_node_started : Stage
deriving DecidableEq, Repr, Fintype

/-- The launch chain of `launch_node` as a plan: each stage paired with
whether the source propagates an error from it with `?` (`true`) or calls it
infallibly (`false`).  The order is exactly the order of the calls in
`launch_node`. -/
def launch_plan : List (Stage × Bool) :=
  [(Stage.configured_globals, false),
   (Stage.loaded_toml_config, true),
   (Stage.resolved_peers, true),
   (Stage.attach_database, false),
   (Stage.adjusted_configs, false),
   (Stage.provider_factory, true),
   (Stage.prometheus, true),
   (Stage.genesis, true),
   (Stage.metrics, false),
   (Stage.blockchain_db, true),
   (Stage.components, true),
   (Stage.fetch_client, true),
   (Stage.max_block, true),
   (Stage.build_pipeline, true),
   (Stage.consensus_engine_build, true),
   (Stage.on_node_started, true)]

/-- Modelled from the spec: the bodies of the launch stages (the
`LaunchContext` methods of `launch/common.rs` and the post-context build
steps, which are not under `src/`) are abstracted by an oracle
`ok : Stage → Bool` saying whether each stage succeeds.  `run_plan` is the
`?`-propagation of `launch_node`: a fallible stage either succeeds,
extending the trace of executed stages, or fails, aborting the chain with an
error that names the failing stage and the trace executed before it;
infallible stages always extend the trace. -/
def run_plan (ok : Stage → Bool) :
    List (Stage × Bool) → List Stage → Except (Stage × List Stage) (List Stage)
  | [], t => Except.ok t
  | (s, true) :: rest, t =>
      if ok s then run_plan ok rest (t ++ [s]) else Except.error (s, t)
  | (s, false) :: rest, t => run_plan ok rest (t ++ [s])

/-- Shallow embedding of `DefaultNodeLauncher::launch_node`: run the launch
chain from an empty trace.  A successful run returns the full trace (the
fully-wired `NodeHandle`); a failed run returns the error of the failing
stage. -/
def launch_node (ok : Stage → Bool) : Except (Stage × List Stage) (List Stage) :=
  run_plan ok launch_plan []

/-- The stage order of the launch chain. -/
def launch_stage_order : List Stage := launch_plan.map Prod.fst

/-- The eleven `LaunchContext` stages in the order the spec lists them. -/
def ctx_stage_order : List Stage :=
  [Stage.configured_globals, Stage.loaded_toml_config, Stage.resolved_peers,
   Stage.attach_database, Stage.adjusted_configs, Stage.provider_factory,
   Stage.prometheus, Stage.genesis, Stage.metrics, Stage.blockchain_db,
   Stage.components]

/-- The fallible stages of the launch chain. -/
def fallible_stages : List Stage :=
  (launch_plan.filter (fun p => p.2)).map Prod.fst

theorem mem_fallible_iff :
    ∀ s : Stage, s ∈ fallible_stages ↔ (s, true) ∈ launch_plan := by
  decide

theorem run_plan_ok_of_all (ok : Stage → Bool) :
    ∀ (plan : List (Stage × Bool)) (t : List Stage),
      (∀ s, (s, true) ∈ plan → ok s = true) →
      run_plan ok plan t = Except.ok (t ++ plan.map Prod.fst) := by
  intro plan
  induction plan with
  | nil => intro t _; simp [run_plan]
  | cons p rest ih =>
    obtain ⟨s, b⟩ := p
    intro t h
    cases b with
    | false =>
      rw [run_plan, ih (t ++ [s]) (fun s' h' => h s' (List.mem_cons_of_mem _ h'))]
      simp
    | true =>
      have hs : ok s = true := h s (List.mem_cons_self _ _)
      rw [run_plan, if_pos hs,
        ih (t ++ [s]) (fun s' h' => h s' (List.mem_cons_of_mem _ h'))]
      simp

theorem run_plan_ok_inv (ok : Stage → Bool) :
    ∀ (plan : List (Stage × Bool)) (t tr : List Stage),
      run_plan ok plan t = Except.ok tr →
      tr = t ++ plan.map Prod.fst ∧ ∀ s, (s, true) ∈ plan → ok s = true := by
  intro plan
  induction plan with
  | nil =>
    intro t tr h
    simp [run_plan] at h
    simp [h.symm]
  | cons p rest ih =>
    obtain ⟨s, b⟩ := p
    intro t tr h
    cases b with
    | false =>
      rw [run_plan] at h
      obtain ⟨h1, h2⟩ := ih (t ++ [s]) tr h
      refine ⟨by simpa using h1, ?_⟩
      intro s' hs'
      rcases List.mem_cons.mp hs' with h' | h'
      · simp at h'
      · exact h2 s' h'
    | true =>
      rw [run_plan] at h
      by_cases hs : ok s = true
      · rw [if_pos hs] at h
        obtain ⟨h1, h2⟩ := ih (t ++ [s]) tr h
        refine ⟨by simpa using h1, ?_⟩
        intro s' hs'
        rcases List.mem_cons.mp hs' with h' | h'
        · injection h' with h1' _
          rw [h1']
          exact hs
        · exact h2 s' h'
      · rw [if_neg hs] at h
        cases h

theorem run_plan_error_inv (ok : Stage → Bool) :
    ∀ (plan : List (Stage × Bool)) (t : List Stage) (s : Stage) (t' : List Stage),
      run_plan ok plan t = Except.error (s, t') →
      ok s = false ∧
        ∃ pre suf, plan = pre ++ (s, true) :: suf ∧ t' = t ++ pre.map Prod.fst ∧
          ∀ s2, (s2, true) ∈ pre → ok s2 = true := by
  intro plan
  induction plan with
  | nil => intro t s t' h; cases h
  | cons p rest ih =>
    obtain ⟨s0, b⟩ := p
    intro t s t' h
    cases b with
    | false =>
      rw [run_plan] at h
      obtain ⟨hok, pre, suf, hplan, ht', hpre⟩ := ih (t ++ [s0]) s t' h
      refine ⟨hok, (s0, false) :: pre, suf, by simp [hplan], by simp [ht'], ?_⟩
      intro s2 hs2
      rcases List.mem_cons.mp hs2 with h' | h'
      · simp at h'
      · exact hpre s2 h'
    | true =>
      rw [run_plan] at h
      by_cases hs : ok s0 = true
      · rw [if_pos hs] at h
        obtain ⟨hok, pre, suf, hplan, ht', hpre⟩ := ih (t ++ [s0]) s t' h
        refine ⟨hok, (s0, true) :: pre, suf, by simp [hplan], by simp [ht'], ?_⟩
        intro s2 hs2
        rcases List.mem_cons.mp hs2 with h' | h'
        · injection h' with h1' _
          rw [h1']
          exact hs
        · exact hpre s2 h'
      · rw [if_neg hs] at h
        cases h
        exact ⟨by simpa using hs, [], rest, by simp, by simp,
          by intro s2 hs2; cases hs2⟩

theorem launch_plan_fst_nodup : (launch_plan.map Prod.fst).Nodup := by decide

theorem snd_unique_of_nodup_fst :
    ∀ (l : List (Launch.Stage × Bool)), (l.map Prod.fst).Nodup →
      ∀ s b1 b2, (s, b1) ∈ l → (s, b2) ∈ l → b1 = b2 := by
  intro l
  induction l with
  | nil => intro _ s b1 b2 h1 _; cases h1
  | cons p rest ih =>
    intro hnd s b1 b2 h1 h2
    rw [List.map_cons, List.nodup_cons] at hnd
    obtain ⟨hp, hrest⟩ := hnd
    rcases List.mem_cons.mp h1 with e1 | m1 <;> rcases List.mem_cons.mp h2 with e2 | m2
    · have h12 := e1.trans e2.symm
      simp only [Prod.mk.injEq, true_and] at h12
      exact h12
    · refine absurd (List.mem_map_of_mem Prod.fst m2) ?_
      rw [← e1] at hp
      exact hp
    · refine absurd (List.mem_map_of_mem Prod.fst m1) ?_
      rw [← e2] at hp
      exact hp
    · exact ih hrest s b1 b2 m1 m2

/-- C2: `launch_node` is all-or-nothing.  If every fallible launch stage
succeeds, the launch returns the fully-wired node (the full stage trace); a
successful return implies every fallible stage succeeded; and an error
return names a stage that failed, so no partially-initialized node is handed
to the caller. -/
theorem launch_node_all_or_nothing (ok : Stage → Bool) :
    ((∀ s ∈ fallible_stages, ok s = true) →
      launch_node ok = Except.ok launch_stage_order)
    ∧ (∀ tr, launch_node ok = Except.ok tr →
        tr = launch_stage_order ∧ ∀ s ∈ fallible_stages, ok s = true)
    ∧ (∀ s t, launch_node ok = Except.error (s, t) →
        ok s = false ∧ s ∈ fallible_stages) := by
  refine ⟨?_, ?_, ?_⟩
  · intro hall
    have h := run_plan_ok_of_all ok launch_plan []
      (fun s hs => hall s ((mem_fallible_iff s).mpr hs))
    simpa [launch_node, launch_stage_order] using h
  · intro tr htr
    obtain ⟨h1, h2⟩ := run_plan_ok_inv ok launch_plan [] tr htr
    exact ⟨by simpa [launch_stage_order] using h1,
      fun s hs => h2 s ((mem_fallible_iff s).mp hs)⟩
  · intro s t h
    obtain ⟨hok, pre, suf, hplan, -, -⟩ := run_plan_error_inv ok launch_plan [] s t h
    refine ⟨hok, (mem_fallible_iff s).mpr ?_⟩
    rw [hplan]
    simp

/-- Witness for C2: with every stage succeeding, the launch returns the full
stage trace. -/
theorem launch_node_all_or_nothing_witness :
    launch_node (fun _ => true) = Except.ok launch_stage_order :=
  (launch_node_all_or_nothing (fun _ => true)).1 (fun _ _ => rfl)

/-- C5: `launch_node` executes the stages in the spec's fixed order: a fully
successful launch runs exactly the eleven context stages in order (then the
remaining build steps), and a failed launch has executed exactly a prefix of
that order, every fallible stage of which succeeded. -/
theorem launch_node_stage_order (ok : Stage → Bool) :
    ((∀ s ∈ fallible_stages, ok s = true) →
      ∃ rest, launch_node ok = Except.ok (ctx_stage_order ++ rest))
    ∧ (∀ s t, launch_node ok = Except.error (s, t) →
        (t ++ [s]) <+: launch_stage_order
        ∧ ∀ s2 ∈ t, s2 ∈ fallible_stages → ok s2 = true) := by
  constructor
  · intro hall
    refine ⟨[Stage.fetch_client, Stage.max_block, Stage.build_pipeline,
      Stage.consensus_engine_build, Stage.on_node_started], ?_⟩
    have h := run_plan_ok_of_all ok launch_plan []
      (fun s hs => hall s ((mem_fallible_iff s).mpr hs))
    simpa [launch_node, ctx_stage_order] using h
  · intro s t h
    obtain ⟨hok, pre, suf, hplan, ht, hpre⟩ := run_plan_error_inv ok launch_plan [] s t h
    rw [List.nil_append] at ht
    constructor
    · refine ⟨suf.map Prod.fst, ?_⟩
      rw [ht, launch_stage_order, hplan]
      simp
    · intro s2 hs2 hfs2
      rw [ht] at hs2
      obtain ⟨p, hp, hps⟩ := List.mem_map.mp hs2
      have hpmem : p ∈ launch_plan := by
        rw [hplan]
        exact List.mem_append_left _ hp
      have hmem2 : (s2, p.2) ∈ launch_plan := by
        have hpe : p = (s2, p.2) := by rw [← hps]
        rw [← hpe]
        exact hpmem
      have hptrue : p.2 = true :=
        snd_unique_of_nodup_fst launch_plan launch_plan_fst_nodup s2 p.2 true
          hmem2 ((mem_fallible_iff s2).mp hfs2)
      have hpe : p = (s2, true) := by rw [← hps, ← hptrue]
      rw [hpe] at hp
      exact hpre s2 hp

/-- Witness for C5: with `genesis` failing and everything else succeeding,
the launch aborts at `genesis` after executing exactly the first seven
stages, all of whose fallible members succeeded. -/
theorem launch_node_stage_order_witness :
    (([Stage.configured_globals, Stage.loaded_toml_config, Stage.resolved_peers,
       Stage.attach_database, Stage.adjusted_configs, Stage.provider_factory,
       Stage.prometheus] ++ [Stage.genesis]) <+: launch_stage_order)
    ∧ ∀ s2 ∈ [Stage.configured_globals, Stage.loaded_toml_config,
        Stage.resolved_peers, Stage.attach_database, Stage.adjusted_configs,
        Stage.provider_factory, Stage.prometheus],
        s2 ∈ fallible_stages →
        (fun s => decide (s ≠ Stage.genesis)) s2 = true :=
  (launch_node_stage_order (fun s => decide (s ≠ Stage.genesis))).2
    Stage.genesis
    [Stage.configured_globals, Stage.loaded_toml_config, Stage.resolved_peers,
     Stage.attach_database, Stage.adjusted_configs, Stage.provider_factory,
     Stage.prometheus]
    (by rfl)

end Launch

namespace PrunerCfg

/-- The pruner-relevant configuration assembled by `PrunerBuilder`
(in the prune crate, not under `src/`): the maximum reorg depth and, when
set, the extension manager's aggregate (minimum) finished height.  The
default builder returned by `ctx.pruner_builder()` has no extension floor. -/
structure PrunerBuilder where
  max_reorg_depth : Nat
  finished_exex_height : Option Nat
deriving DecidableEq, Repr

/-- The built pruner, carrying the same retention configuration. -/
structure Pruner where
  max_reorg_depth : Nat
  finished_exex_height : Option Nat
deriving DecidableEq, Repr

/-- Modelled from the spec: `PrunerBuilder::build` hands the retention
configuration to the pruner. -/
def PrunerBuilder.build (pb : PrunerBuilder) : Pruner :=
  { max_reorg_depth := pb.max_reorg_depth
    finished_exex_height := pb.finished_exex_height }

/-- Modelled from the spec: the deletion permission of the built pruner (the
pruner task itself is in the prune crate, not under `src/`).  The spec's
retention floors say the pruner "never deletes data above
`tip - max_reorg_depth`" and "never above the Extension Manager's aggregate
finished height when extensions are registered"; `can_delete` is the most
permissive deletion predicate consistent with those floors, so "never
deletes" facts are stated as facts about `can_delete`. -/
def Pruner.can_delete (p : Pruner) (tip height : Nat) : Bool :=
  decide (height ≤ tip - p.max_reorg_depth) &&
    (match p.finished_exex_height with
     | some f => decide (height ≤ f)
     | none => true)

/-- Shallow embedding of the pruner configuration in
`DefaultNodeLauncher::launch_node` (`launch/mod.rs`, lines 244-251): the
builder gets the tree config's `max_reorg_depth`, and the extension floor is
set exactly when the ExEx manager handle is present (`exex_manager_handle`
carries the aggregate finished height it reports). -/
def launch_pruner (tree_max_reorg_depth : Nat)
    (exex_manager_handle : Option Nat) : Pruner :=
  let pruner_builder : PrunerBuilder :=
    { max_reorg_depth := tree_max_reorg_depth, finished_exex_height := none }
  let pruner_builder :=
    match exex_manager_handle with
    | some h => { pruner_builder with finished_exex_height := some h }
    | none => pruner_builder
  pruner_builder.build

/-- C3: the pruner built during launch never deletes above
`tip - max_reorg_depth` (from the tree config); when the ExEx manager handle
is present it additionally never deletes above the aggregate finished
height; when no extensions are registered, the only floor imposed is
`tip - max_reorg_depth`. -/
theorem launch_pruner_floors (tmrd tip height f : Nat) :
    (∀ exex, (launch_pruner tmrd exex).can_delete tip height = true →
      height ≤ tip - tmrd)
    ∧ ((launch_pruner tmrd (some f)).can_delete tip height = true →
      height ≤ f)
    ∧ ((launch_pruner tmrd none).can_delete tip height = true ↔
      height ≤ tip - tmrd) := by
  refine ⟨?_, ?_, ?_⟩
  · intro exex h
    cases exex with
    | none =>
      simpa [launch_pruner, PrunerBuilder.build, Pruner.can_delete] using h
    | some x =>
      simp [launch_pruner, PrunerBuilder.build, Pruner.can_delete] at h
      exact h.1
  · intro h
    simp [launch_pruner, PrunerBuilder.build, Pruner.can_delete] at h
    exact h.2
  · simp [launch_pruner, PrunerBuilder.build, Pruner.can_delete]

/-- Witness for C3: with `max_reorg_depth = 2`, tip 10 and finished height 5,
a deletable height 3 is under both floors. -/
theorem launch_pruner_floors_witness : 3 ≤ 10 - 2 ∧ 3 ≤ 5 :=
  ⟨(launch_pruner_floors 2 10 3 5).1 (some 5) (by decide),
   (launch_pruner_floors 2 10 3 5).2.1 (by decide)⟩

end PrunerCfg

namespace Engine

/-- An inbound consensus-engine directive: a fork-choice update or a new
payload, with an opaque identifying payload. -/
inductive EngineMessage where
  | forkchoice_updated (id : Nat) : EngineMessage
  | new_payload (id : Nat) : EngineMessage
deriving DecidableEq, Repr

/-- Whether the directive is a fork-choice update. -/
def EngineMessage.is_fcu : EngineMessage → Bool
  | .forkchoice_updated _ => true
  | .new_payload _ => false

/-- Whether the directive is a new payload. -/
def EngineMessage.is_np : EngineMessage → Bool
  | .forkchoice_updated _ => false
  | .new_payload _ => true

/-- Modelled from the spec: the `skip_fcu` debug override — "drop
ForkchoiceUpdated at ingress" (the `maybe_skip_fcu` stream combinator is in
the engine-util crate, not under `src/`) — as a transformation of the
inbound directive sequence. -/
def maybe_skip_fcu (skip : Bool) (msgs : List EngineMessage) :
    List EngineMessage :=
  if skip then msgs.filter (fun m => ! m.is_fcu) else msgs

/-- Modelled from the spec: the `skip_new_payload` debug override — "drop
NewPayload at ingress". -/
def maybe_skip_new_payload (skip : Bool) (msgs : List EngineMessage) :
    List EngineMessage :=
  if skip then msgs.filter (fun m => ! m.is_np) else msgs

/-- Modelled from the spec: the `engine_api_store` debug override — "persist
every observed directive after the skip filters, for later replay".  Returns
the directives passed on to the engine together with the recorded sequence
when a store path is configured. -/
def maybe_store_messages (store : Bool) (msgs : List EngineMessage) :
    List EngineMessage × Option (List EngineMessage) :=
  (msgs, if store then some msgs else none)

/-- Shallow embedding of the `consensus_engine_stream` construction in
`launch_node` (`launch/mod.rs`, lines 156-162): the skip filters are applied
first, then the store. -/
def consensus_engine_stream (skip_fcu skip_new_payload store : Bool)
    (inbound : List EngineMessage) :
    List EngineMessage × Option (List EngineMessage) :=
  maybe_store_messages store
    (maybe_skip_new_payload skip_new_payload (maybe_skip_fcu skip_fcu inbound))

/-- C7: with `engine_api_store` configured, the stored sequence is exactly
the sequence the engine observes, a directive is observed (hence stored) iff
it came in and survived both skip filters, and without the store nothing is
recorded. -/
theorem engine_store_after_skip_filters (sf snp : Bool)
    (inbound : List EngineMessage) :
    ((consensus_engine_stream sf snp true inbound).2 =
      some (consensus_engine_stream sf snp true inbound).1)
    ∧ (∀ m, m ∈ (consensus_engine_stream sf snp true inbound).1 ↔
        (m ∈ inbound ∧ (sf = true → m.is_fcu = false)
          ∧ (snp = true → m.is_np = false)))
    ∧ ((consensus_engine_stream sf snp false inbound).2 = none) := by
  refine ⟨rfl, ?_, rfl⟩
  intro m
  cases sf <;> cases snp <;>
    simp [consensus_engine_stream, maybe_store_messages, maybe_skip_fcu,
      maybe_skip_new_payload, List.mem_filter]
  all_goals tauto

/-- Witness for C7: with `skip_fcu` on, a fork-choice update followed by a
new payload is stored as exactly the surviving new payload. -/
theorem engine_store_after_skip_filters_witness :
    (consensus_engine_stream true false true
        [EngineMessage.forkchoice_updated 0, EngineMessage.new_payload 1]).2 =
      some (consensus_engine_stream true false true
        [EngineMessage.forkchoice_updated 0, EngineMessage.new_payload 1]).1 :=
  (engine_store_after_skip_filters true false
    [EngineMessage.forkchoice_updated 0, EngineMessage.new_payload 1]).1

end Engine

namespace NodeApi

/-- The type of the absent optional capabilities: the `Option<()>` on which
`EngineComponent` and `RpcComponent` are implemented
(`crates/node/api/src/node.rs`, lines 213-251).  The absent value is
`none`. -/
abbrev AbsentComponent := Option Unit

/-- `EngineComponent::engine` for `Option<()>` (line 218): returns `self`. -/
def engine (x : AbsentComponent) : AbsentComponent := x

/-- `EngineComponent::handle` for `Option<()>` (line 222): returns `self`. -/
def handle (x : AbsentComponent) : AbsentComponent := x

/-- `EngineComponent::shutdown_rx_mut` for `Option<()>` (line 226): returns
`self`. -/
def shutdown_rx_mut (x : AbsentComponent) : AbsentComponent := x

/-- `RpcComponent::handles` for `Option<()>` (line 244): returns `self`. -/
def handles (x : AbsentComponent) : AbsentComponent := x

/-- `RpcComponent::registry` for `Option<()>` (line 248): returns `self`. -/
def registry (x : AbsentComponent) : AbsentComponent := x

/-- C6: reading through an absent optional capability is total and yields
the absent value: every accessor of the `Option<()>` implementations returns
its argument unchanged, and on the absent value `none` each returns
`none`. -/
theorem absent_component_accessors :
    (∀ x : AbsentComponent, engine x = x ∧ handle x = x
      ∧ shutdown_rx_mut x = x ∧ handles x = x ∧ registry x = x)
    ∧ (engine none = none ∧ handle none = none ∧ shutdown_rx_mut none = none
      ∧ handles none = none ∧ registry none = none) :=
  ⟨fun _ => ⟨rfl, rfl, rfl, rfl, rfl⟩, rfl, rfl, rfl, rfl, rfl⟩

end NodeApi

namespace Revm

/-- Inspector stack configuration (`InspectorStackConfig`, opaque). -/
structure InspectorStackConfig where
  cfg : Nat
deriving DecidableEq, Repr

/-- The inspector stack.  Modelled from the spec: `InspectorStack::new`
(`crates/revm/src/stack.rs`, not under `src/`) packages its configuration
into a stack. -/
structure InspectorStack where
  config : InspectorStackConfig
deriving DecidableEq, Repr

/-- Modelled from the spec: `InspectorStack::new(config)`. -/
def InspectorStack.new (config : InspectorStackConfig) : InspectorStack :=
  { config := config }

/-- Chain specification handle (`Arc<ChainSpec>`, opaque). -/
structure ChainSpec where
  id : Nat
deriving DecidableEq, Repr

/-- `Factory` (`crates/revm/src/factory.rs`, lines 11-15). -/
structure Factory where
  chain_spec : ChainSpec
  stack : Option InspectorStack
deriving DecidableEq, Repr

/-- `Factory::new` (factory.rs, lines 19-21). -/
def Factory.new (chain_spec : ChainSpec) : Factory :=
  { chain_spec := chain_spec, stack := none }

/-- `Factory::with_stack` (factory.rs, lines 24-27). -/
def Factory.with_stack (f : Factory) (stack : InspectorStack) : Factory :=
  { f with stack := some stack }

/-- `Factory::with_stack_config` (factory.rs, lines 30-33). -/
def Factory.with_stack_config (f : Factory)
    (config : InspectorStackConfig) : Factory :=
  { f with stack := some (InspectorStack.new config) }

/-- The block executor.  Modelled from the spec: `EVMProcessor`
(`crates/revm/src/processor.rs`, not under `src/`), restricted to what the
factory sets: the chain spec, the wrapped state provider (`State::new(sp)`
is modelled by the opaque provider id itself), the optional pre-existing
bundle state and the optional inspector stack. -/
structure EVMProcessor where
  chain_spec : ChainSpec
  state : Nat
  bundle : Option Nat
  stack : Option InspectorStack
deriving DecidableEq, Repr

/-- Modelled from the spec: `EVMProcessor::new` starts without a stack. -/
def EVMProcessor.new (chain_spec : ChainSpec) (state : Nat) : EVMProcessor :=
  { chain_spec := chain_spec, state := state, bundle := none, stack := none }

/-- Modelled from the spec: `EVMProcessor::new_with_state` starts from a
pre-existing bundle, without a stack. -/
def EVMProcessor.new_with_state (chain_spec : ChainSpec) (state : Nat)
    (bundle : Nat) : EVMProcessor :=
  { chain_spec := chain_spec, state := state, bundle := some bundle,
    stack := none }

/-- Modelled from the spec: `EVMProcessor::set_stack` installs the stack. -/
def EVMProcessor.set_stack (evm : EVMProcessor)
    (stack : InspectorStack) : EVMProcessor :=
  { evm with stack := some stack }

/-- `ExecutorFactory::with_sp` for `Factory` (factory.rs, lines 37-43). -/
def Factory.with_sp (f : Factory) (sp : Nat) : EVMProcessor :=
  let evm := EVMProcessor.new f.chain_spec sp
  match f.stack with
  | some stack => evm.set_stack stack
  | none => evm

/-- `ExecutorFactory::with_sp_and_bundle` for `Factory` (factory.rs, lines
45-56). -/
def Factory.with_sp_and_bundle (f : Factory) (sp bundle : Nat) : EVMProcessor :=
  let evm := EVMProcessor.new_with_state f.chain_spec sp bundle
  match f.stack with
  | some stack => evm.set_stack stack
  | none => evm

/-- C10: `with_stack` and `with_stack_config` modify only the
inspector-stack field — the chain spec (the one supplied at `Factory::new`)
is unchanged — and every executor subsequently produced by `with_sp` or
`with_sp_and_bundle` has the installed stack. -/
theorem factory_stack_frame (cs : ChainSpec) (f : Factory)
    (stack : InspectorStack) (config : InspectorStackConfig)
    (sp bundle : Nat) :
    ((Factory.new cs).chain_spec = cs)
    ∧ ((f.with_stack stack).chain_spec = f.chain_spec)
    ∧ ((f.with_stack_config config).chain_spec = f.chain_spec)
    ∧ (((f.with_stack stack).with_sp sp).stack = some stack)
    ∧ (((f.with_stack stack).with_sp_and_bundle sp bundle).stack = some stack)
    ∧ (((f.with_stack_config config).with_sp sp).stack =
        some (InspectorStack.new config))
    ∧ (((f.with_stack_config config).with_sp_and_bundle sp bundle).stack =
        some (InspectorStack.new config)) :=
  ⟨rfl, rfl, rfl, rfl, rfl, rfl, rfl⟩

end Revm

end AProto
